import Mathlib

/-!
Shallow embedding of the cross_bow webhook ingestion pipeline.

Bytes are modelled as `Nat` (each < 256 where produced by the code),
machine integers as `Int`/`Nat`, timestamps as `Int`, and the Postgres
tables as Lean lists.  External libraries (serde_json parsing, chrono
timestamp parsing, uuid parsing, the Postgres ILIKE operator) are passed
in as explicit function parameters, since their internals are not part of
this repository; everything that is code of the repository is translated
directly from the source.
-/

/-! ### Bytes, hex encoding and decoding

`hexEncode` mirrors `hex::encode` (lowercase); `hexDecode` mirrors
`hex::decode`, which accepts both lowercase and uppercase hex digits and
fails on odd length or non-hex characters. -/

def hexDigitByte (n : Nat) : Nat :=
  if n < 10 then 48 + n else 87 + n

def hexEncode (bs : List Nat) : List Nat :=
  (bs.map (fun b => [hexDigitByte (b / 16), hexDigitByte (b % 16)])).flatten

def hexVal (c : Nat) : Option Nat :=
  if 48 ≤ c ∧ c ≤ 57 then some (c - 48)
  else if 97 ≤ c ∧ c ≤ 102 then some (c - 87)
  else if 65 ≤ c ∧ c ≤ 70 then some (c - 55)
  else none

def hexDecode : List Nat → Option (List Nat)
  | [] => some []
  | [_] => none
  | c1 :: c2 :: rest =>
    match hexVal c1, hexVal c2, hexDecode rest with
    | some h, some l, some bs => some ((h * 16 + l) :: bs)
    | _, _, _ => none

/-! ### SHA-256 and HMAC-SHA256

Straightforward executable model of the `sha2`/`hmac` crates used by
`verify_github_signature`; words are `Nat`s reduced mod 2^32. -/

def u32 (x : Nat) : Nat := x % 4294967296

def rotr (n x : Nat) : Nat := u32 ((x >>> n) ||| (x <<< (32 - n)))

def shaCh (x y z : Nat) : Nat := (x &&& y) ^^^ ((x ^^^ 4294967295) &&& z)

def shaMaj (x y z : Nat) : Nat := (x &&& y) ^^^ (x &&& z) ^^^ (y &&& z)

def bigSigma0 (x : Nat) : Nat := rotr 2 x ^^^ rotr 13 x ^^^ rotr 22 x

def bigSigma1 (x : Nat) : Nat := rotr 6 x ^^^ rotr 11 x ^^^ rotr 25 x

def smallSigma0 (x : Nat) : Nat := rotr 7 x ^^^ rotr 18 x ^^^ (x >>> 3)

def smallSigma1 (x : Nat) : Nat := rotr 17 x ^^^ rotr 19 x ^^^ (x >>> 10)

def shaK : List Nat :=
  [1116352408, 1899447441, 3049323471, 3921009573, 961987163,
   1508970993, 2453635748, 2870763221, 3624381080, 310598401,
   607225278, 1426881987, 1925078388, 2162078206, 2614888103,
   3248222580, 3835390401, 4022224774, 264347078, 604807628,
   770255983, 1249150122, 1555081692, 1996064986, 2554220882,
   2821834349, 2952996808, 3210313671, 3336571891, 3584528711,
   113926993, 338241895, 666307205, 773529912, 1294757372,
   1396182291, 1695183700, 1986661051, 2177026350, 2456956037,
   2730485921, 2820302411, 3259730800, 3345764771, 3516065817,
   3600352804, 4094571909, 275423344, 430227734, 506948616,
   659060556, 883997877, 958139571, 1322822218, 1537002063,
   1747873779, 1955562222, 2024104815, 2227730452, 2361852424,
   2428436474, 2756734187, 3204031479, 3329325298]

def shaInit : List Nat :=
  [1779033703, 3144134277, 1013904242, 2773480762,
   1359893119, 2600822924, 528734635, 1541459225]

/-- Group four big-endian bytes into one 32-bit word, over a whole block. -/
def bytesToWords : List Nat → List Nat
  | b0 :: b1 :: b2 :: b3 :: rest =>
    (((b0 * 256 + b1) * 256 + b2) * 256 + b3) :: bytesToWords rest
  | _ => []

/-- Extend the 16 block words to 64; `acc` is kept most-recent-first. -/
def schedExtend : Nat → List Nat → List Nat
  | 0, acc => acc
  | n + 1, acc =>
    let w2 := acc.getD 1 0
    let w7 := acc.getD 6 0
    let w15 := acc.getD 14 0
    let w16 := acc.getD 15 0
    schedExtend n (u32 (smallSigma1 w2 + w7 + smallSigma0 w15 + w16) :: acc)

def messageSchedule (block : List Nat) : List Nat :=
  (schedExtend 48 (bytesToWords block).reverse).reverse

/-- One SHA-256 round on the state `[a,b,c,d,e,f,g,h]`. -/
def shaRound (st : List Nat) (kw : Nat × Nat) : List Nat :=
  let a := st.getD 0 0
  let b := st.getD 1 0
  let c := st.getD 2 0
  let d := st.getD 3 0
  let e := st.getD 4 0
  let f := st.getD 5 0
  let g := st.getD 6 0
  let h := st.getD 7 0
  let t1 := u32 (h + bigSigma1 e + shaCh e f g + kw.1 + kw.2)
  let t2 := u32 (bigSigma0 a + shaMaj a b c)
  [u32 (t1 + t2), a, b, c, u32 (d + t1), e, f, g]

def shaCompress (hs : List Nat) (block : List Nat) : List Nat :=
  let w := messageSchedule block
  let st := (shaK.zip w).foldl shaRound hs
  (hs.zip st).map (fun p => u32 (p.1 + p.2))

/-- Big-endian bytes of a 64-bit length, most significant first. -/
def lenBytes64 (n : Nat) : List Nat :=
  [n >>> 56 % 256, n >>> 48 % 256, n >>> 40 % 256, n >>> 32 % 256,
   n >>> 24 % 256, n >>> 16 % 256, n >>> 8 % 256, n % 256]

/-- Append the 0x80 byte, then the smallest number of zero bytes that
brings the length to 56 mod 64, then the 64-bit big-endian bit length.
`119 - len % 64` is `56 + (63 - len % 64)`, which never truncates, so
the zero count is correct on every residue class, including lengths
≡ 56..63 (mod 64). -/
def shaPad (msg : List Nat) : List Nat :=
  let len := msg.length
  let zeros := (119 - len % 64) % 64
  msg ++ 128 :: List.replicate zeros 0 ++ lenBytes64 (len * 8)

/-- Split into 64-byte blocks; `fuel` bounds the recursion. -/
def chunk64 : Nat → List Nat → List (List Nat)
  | 0, _ => []
  | _, [] => []
  | fuel + 1, l => l.take 64 :: chunk64 fuel (l.drop 64)

def wordBytesBE (w : Nat) : List Nat :=
  [w >>> 24 % 256, w >>> 16 % 256, w >>> 8 % 256, w % 256]

def sha256 (msg : List Nat) : List Nat :=
  let padded := shaPad msg
  let hs := (chunk64 padded.length padded).foldl shaCompress shaInit
  (hs.map wordBytesBE).flatten

/-- HMAC-SHA256 with a 64-byte block size, as in the `hmac` crate. -/
def hmacSha256 (key msg : List Nat) : List Nat :=
  let k0 := if 64 < key.length then sha256 key else key
  let kp := k0 ++ List.replicate (64 - k0.length) 0
  let ipadded := kp.map (fun b => b ^^^ 54)
  let opadded := kp.map (fun b => b ^^^ 92)
  sha256 (opadded ++ sha256 (ipadded ++ msg))

/-! ### verify_github_signature (src/utils/signature.rs)

Signatures are ASCII byte lists.  `sigTag` is the byte string "sha256=".
`HmacSha256::new_from_slice` never fails for HMAC (any key length is
accepted), so that error branch of the source is unreachable and the
model goes straight to the MAC computation.  `ct_eq` on byte slices is
equality (returning false on length mismatch); constant-time execution
is a timing property outside the functional model. -/

def sigTag : List Nat := [115, 104, 97, 50, 53, 54, 61]

/-- `str::strip_prefix` specialised to byte lists. -/
def stripTag : List Nat → List Nat → Option (List Nat)
  | [], rest => some rest
  | _ :: _, [] => none
  | t :: ts, c :: cs => if t = c then stripTag ts cs else none

def verify_github_signature (secret payload signature : List Nat) : Bool :=
  match stripTag sigTag signature with
  | none => false
  | some signatureHex =>
    match hexDecode signatureHex with
    | none => false
    | some signatureBytes =>
      let expected := hmacSha256 secret payload
      expected == signatureBytes

/-! ### JSON values (serde_json::Value)

Numbers are modelled as `Int` (the payload fields the pipeline reads are
read with `as_i64`/`as_bool`/`as_str`, never as floats).  Bracket
indexing `payload["k"]` returns `Null` when the value is not an object or
lacks the key, exactly as serde_json's `Index` impl does; `Value::get`
returns an `Option`. -/

inductive Json where
  | null : Json
  | bool : Bool → Json
  | num : Int → Json
  | str : String → Json
  | arr : List Json → Json
  | obj : List (String × Json) → Json

/-- Bracket indexing by key: `payload["k"]`. -/
def Json.idx : Json → String → Json
  | .obj fields, k => (fields.find? (fun f => f.1 == k)).elim Json.null Prod.snd
  | _, _ => .null

/-- `Value::get(key)` returning an `Option`. -/
def Json.getKey : Json → String → Option Json
  | .obj fields, k => (fields.find? (fun f => f.1 == k)).map Prod.snd
  | _, _ => none

/-- `Value::get(index)` on arrays. -/
def Json.getIdx : Json → Nat → Option Json
  | .arr xs, n => xs.get? n
  | _, _ => none

def Json.asStr : Json → Option String
  | .str s => some s
  | _ => none

def Json.asInt : Json → Option Int
  | .num n => some n
  | _ => none

def Json.asBool : Json → Option Bool
  | .bool b => some b
  | _ => none

def Json.asArr : Json → Option (List Json)
  | .arr xs => some xs
  | _ => none

def Json.isObj : Json → Bool
  | .obj _ => true
  | _ => false

/-! ### Database rows (src/models)

`i64`/`i32` columns are `Int`, timestamps are `Int`, UUIDs are the
parsed strings.  Surrogate ids are assigned as `length + 1`, which is
monotone and unique because no row is ever deleted. -/

structure EventRow where
  id : Int
  source : String
  event_type : String
  action : Option String
  actor_name : Option String
  actor_email : Option String
  actor_id : Option String
  raw_event : Json
  delivery_id : String
  signature : Option String
  received_at : Int
  processed : Bool
  processed_at : Option Int
  repository_id : Option Int

structure CreateEvent where
  source : String
  event_type : String
  action : Option String
  actor_name : Option String
  actor_email : Option String
  actor_id : Option String
  raw_event : Json
  delivery_id : String
  signature : Option String
  repository_id : Option Int

structure RepoRow where
  id : Int
  github_id : Int
  name : String
  full_name : String
  owner : String
  description : Option String
  url : String
  is_private : Bool
  created_at : Int
  updated_at : Int

structure CreateRepository where
  github_id : Int
  name : String
  full_name : String
  owner : String
  description : Option String
  url : String
  is_private : Bool

structure CommitRow where
  id : Int
  repository_id : Int
  webhook_event_id : Int
  sha : String
  message : String
  author_name : String
  author_email : String
  committer_name : String
  committer_email : String
  committed_at : Int
  url : String
  created_at : Int

structure CreateCommit where
  repository_id : Int
  webhook_event_id : Int
  sha : String
  message : String
  author_name : String
  author_email : String
  committer_name : String
  committer_email : String
  committed_at : Int
  url : String

structure PullRequestRow where
  id : Int
  repository_id : Int
  webhook_event_id : Int
  github_id : Int
  number : Int
  title : String
  state : String
  author : String
  base_branch : String
  head_branch : String
  url : String
  opened_at : Int
  closed_at : Option Int
  merged_at : Option Int
  created_at : Int
  updated_at : Int

structure CreatePullRequest where
  repository_id : Int
  webhook_event_id : Int
  github_id : Int
  number : Int
  title : String
  state : String
  author : String
  base_branch : String
  head_branch : String
  url : String
  opened_at : Int
  closed_at : Option Int
  merged_at : Option Int

structure IssueRow where
  id : Int
  repository_id : Int
  webhook_event_id : Int
  github_id : Int
  number : Int
  title : String
  state : String
  author : String
  labels : List String
  url : String
  opened_at : Int
  closed_at : Option Int
  created_at : Int
  updated_at : Int

structure CreateIssue where
  repository_id : Int
  webhook_event_id : Int
  github_id : Int
  number : Int
  title : String
  state : String
  author : String
  labels : List String
  url : String
  opened_at : Int
  closed_at : Option Int

structure WebhookEventRow where
  id : Int
  repository_id : Option Int
  event_type : String
  event_action : Option String
  delivery_id : String
  payload : Json
  signature : String
  received_at : Int
  processed : Bool
  processed_at : Option Int

structure CreateWebhookEvent where
  repository_id : Option Int
  event_type : String
  event_action : Option String
  delivery_id : String
  payload : Json
  signature : String

structure DB where
  events : List EventRow
  repositories : List RepoRow
  commits : List CommitRow
  pull_requests : List PullRequestRow
  issues : List IssueRow
  webhook_events : List WebhookEventRow

def DB.empty : DB := ⟨[], [], [], [], [], []⟩

/-! ### Table operations

Each `create` is a single SQL statement; `t` is the database clock used
for `NOW()` and default timestamp columns. -/

/-- `Event::create`: plain INSERT, `processed` defaults to false. -/
def Event.create (db : DB) (t : Int) (d : CreateEvent) : EventRow × DB :=
  let row : EventRow :=
    { id := Int.ofNat db.events.length + 1
      source := d.source
      event_type := d.event_type
      action := d.action
      actor_name := d.actor_name
      actor_email := d.actor_email
      actor_id := d.actor_id
      raw_event := d.raw_event
      delivery_id := d.delivery_id
      signature := d.signature
      received_at := t
      processed := false
      processed_at := none
      repository_id := d.repository_id }
  (row, { db with events := db.events ++ [row] })

/-- `Event::mark_processed`: UPDATE events SET processed = true,
processed_at = NOW() WHERE id = $1.  Never fails; matching no row is a
successful no-op. -/
def Event.mark_processed (db : DB) (t : Int) (id : Int) : DB :=
  { db with
    events := db.events.map (fun e =>
      if e.id == id then { e with processed := true, processed_at := some t } else e) }

/-- `Repository::create`: INSERT ... ON CONFLICT (github_id) DO UPDATE
SET name, full_name, owner, description, url, is_private, updated_at =
NOW().  The key `github_id` and the surrogate `id` are never changed by
the update arm. -/
def Repository.create (db : DB) (t : Int) (d : CreateRepository) : RepoRow × DB :=
  match db.repositories.find? (fun r => r.github_id == d.github_id) with
  | some r =>
    let r' := { r with
      name := d.name, full_name := d.full_name, owner := d.owner,
      description := d.description, url := d.url, is_private := d.is_private,
      updated_at := t }
    (r', { db with
      repositories := db.repositories.map (fun x =>
        if x.github_id == d.github_id then
          { x with
            name := d.name, full_name := d.full_name, owner := d.owner,
            description := d.description, url := d.url, is_private := d.is_private,
            updated_at := t }
        else x) })
  | none =>
    let row : RepoRow :=
      { id := Int.ofNat db.repositories.length + 1
        github_id := d.github_id, name := d.name, full_name := d.full_name,
        owner := d.owner, description := d.description, url := d.url,
        is_private := d.is_private, created_at := t, updated_at := t }
    (row, { db with repositories := db.repositories ++ [row] })

def Repository.find_by_full_name (db : DB) (full_name : String) : Option RepoRow :=
  db.repositories.find? (fun r => r.full_name == full_name)

/-- `Commit::create`: INSERT ... ON CONFLICT (sha, repository_id) DO
UPDATE SET message, author/committer identity, committed_at, url.  The
key and `webhook_event_id` are not in the SET list. -/
def Commit.create (db : DB) (t : Int) (d : CreateCommit) : CommitRow × DB :=
  match db.commits.find? (fun c => c.sha == d.sha && c.repository_id == d.repository_id) with
  | some c =>
    let c' := { c with
      message := d.message, author_name := d.author_name,
      author_email := d.author_email, committer_name := d.committer_name,
      committer_email := d.committer_email, committed_at := d.committed_at,
      url := d.url }
    (c', { db with
      commits := db.commits.map (fun x =>
        if x.sha == d.sha && x.repository_id == d.repository_id then
          { x with
            message := d.message, author_name := d.author_name,
            author_email := d.author_email, committer_name := d.committer_name,
            committer_email := d.committer_email, committed_at := d.committed_at,
            url := d.url }
        else x) })
  | none =>
    let row : CommitRow :=
      { id := Int.ofNat db.commits.length + 1
        repository_id := d.repository_id, webhook_event_id := d.webhook_event_id,
        sha := d.sha, message := d.message, author_name := d.author_name,
        author_email := d.author_email, committer_name := d.committer_name,
        committer_email := d.committer_email, committed_at := d.committed_at,
        url := d.url, created_at := t }
    (row, { db with commits := db.commits ++ [row] })

/-- `PullRequest::create`: INSERT ... ON CONFLICT (github_id) DO UPDATE
SET title, state, author, base_branch, head_branch, url, closed_at,
merged_at, updated_at = NOW(). -/
def PullRequest.create (db : DB) (t : Int) (d : CreatePullRequest) : PullRequestRow × DB :=
  match db.pull_requests.find? (fun p => p.github_id == d.github_id) with
  | some p =>
    let p' := { p with
      title := d.title, state := d.state, author := d.author,
      base_branch := d.base_branch, head_branch := d.head_branch,
      url := d.url, closed_at := d.closed_at, merged_at := d.merged_at,
      updated_at := t }
    (p', { db with
      pull_requests := db.pull_requests.map (fun x =>
        if x.github_id == d.github_id then
          { x with
            title := d.title, state := d.state, author := d.author,
            base_branch := d.base_branch, head_branch := d.head_branch,
            url := d.url, closed_at := d.closed_at, merged_at := d.merged_at,
            updated_at := t }
        else x) })
  | none =>
    let row : PullRequestRow :=
      { id := Int.ofNat db.pull_requests.length + 1
        repository_id := d.repository_id, webhook_event_id := d.webhook_event_id,
        github_id := d.github_id, number := d.number, title := d.title,
        state := d.state, author := d.author, base_branch := d.base_branch,
        head_branch := d.head_branch, url := d.url, opened_at := d.opened_at,
        closed_at := d.closed_at, merged_at := d.merged_at,
        created_at := t, updated_at := t }
    (row, { db with pull_requests := db.pull_requests ++ [row] })

/-- `Issue::create`: INSERT ... ON CONFLICT (github_id) DO UPDATE SET
title, state, author, labels, url, closed_at, updated_at = NOW(). -/
def Issue.create (db : DB) (t : Int) (d : CreateIssue) : IssueRow × DB :=
  match db.issues.find? (fun i => i.github_id == d.github_id) with
  | some i =>
    let i' := { i with
      title := d.title, state := d.state, author := d.author,
      labels := d.labels, url := d.url, closed_at := d.closed_at,
      updated_at := t }
    (i', { db with
      issues := db.issues.map (fun x =>
        if x.github_id == d.github_id then
          { x with
            title := d.title, state := d.state, author := d.author,
            labels := d.labels, url := d.url, closed_at := d.closed_at,
            updated_at := t }
        else x) })
  | none =>
    let row : IssueRow :=
      { id := Int.ofNat db.issues.length + 1
        repository_id := d.repository_id, webhook_event_id := d.webhook_event_id,
        github_id := d.github_id, number := d.number, title := d.title,
        state := d.state, author := d.author, labels := d.labels,
        url := d.url, opened_at := d.opened_at, closed_at := d.closed_at,
        created_at := t, updated_at := t }
    (row, { db with issues := db.issues ++ [row] })

/-- `WebhookEvent::create`: plain INSERT. -/
def WebhookEvent.create (db : DB) (t : Int) (d : CreateWebhookEvent) :
    WebhookEventRow × DB :=
  let row : WebhookEventRow :=
    { id := Int.ofNat db.webhook_events.length + 1
      repository_id := d.repository_id, event_type := d.event_type,
      event_action := d.event_action, delivery_id := d.delivery_id,
      payload := d.payload, signature := d.signature,
      received_at := t, processed := false, processed_at := none }
  (row, { db with webhook_events := db.webhook_events ++ [row] })

/-! ### External library oracles

`tparse` stands for chrono's `DateTime<Utc>` `FromStr` (ISO-8601),
`uuidParse` for `Uuid::parse_str` (returning the canonical form).  The
theorems below hold for every choice of these functions. -/

structure Libs where
  tparse : String → Option Int
  uuidParse : String → Option String

/-- `Option::or_else` as used throughout the adapters. -/
def optOr {α : Type} (a b : Option α) : Option α :=
  match a with
  | some x => some x
  | none => b

/-! ### services/github.rs : extraction and projection -/

inductive ProcessingError where
  | invalidPayload (msg : String)
deriving DecidableEq

def orInvalid {α : Type} (o : Option α) (msg : String) : Except ProcessingError α :=
  match o with
  | some a => Except.ok a
  | none => Except.error (ProcessingError.invalidPayload msg)

/-- `extract_actor_info` in src/services/github.rs (used by the legacy
GitHub endpoint via `convert_github_webhook_to_event`). -/
def extract_actor_info (payload : Json) :
    Option String × Option String × Option String :=
  let actor_name :=
    optOr (((payload.getKey "sender").bind (fun s => s.getKey "login")).bind Json.asStr)
      (optOr (((payload.getKey "pusher").bind (fun p => p.getKey "name")).bind Json.asStr)
        (((((payload.getKey "commits").bind (fun c => c.getIdx 0)).bind
            (fun c => c.getKey "author")).bind (fun a => a.getKey "name")).bind Json.asStr))
  let actor_email :=
    optOr (((payload.getKey "sender").bind (fun s => s.getKey "email")).bind Json.asStr)
      (optOr (((payload.getKey "pusher").bind (fun p => p.getKey "email")).bind Json.asStr)
        (((((payload.getKey "commits").bind (fun c => c.getIdx 0)).bind
            (fun c => c.getKey "author")).bind (fun a => a.getKey "email")).bind Json.asStr))
  let actor_id :=
    optOr (((payload.getKey "sender").bind (fun s => s.getKey "login")).bind Json.asStr)
      (optOr ((((payload.getKey "sender").bind (fun s => s.getKey "id")).bind
          Json.asInt).map toString)
        (((payload.getKey "pusher").bind (fun p => p.getKey "name")).bind Json.asStr))
  (actor_name, actor_email, actor_id)

/-- `convert_github_webhook_to_event` in src/services/github.rs. -/
def convert_github_webhook_to_event (event_type : String) (event_action : Option String)
    (payload : Json) (delivery_id : String) (signature : Option String)
    (repository_id : Option Int) : CreateEvent :=
  let actor := extract_actor_info payload
  { source := "github"
    event_type := event_type
    action := event_action
    actor_name := actor.1
    actor_email := actor.2.1
    actor_id := actor.2.2
    raw_event := payload
    delivery_id := delivery_id
    signature := signature
    repository_id := repository_id }

/-- `extract_repository` in src/services/github.rs. -/
def extract_repository (payload : Json) : Except ProcessingError CreateRepository := do
  let repo := payload.idx "repository"
  let github_id ← orInvalid (repo.idx "id").asInt "Missing repository id"
  let name ← orInvalid (repo.idx "name").asStr "Missing repository name"
  let full_name ← orInvalid (repo.idx "full_name").asStr "Missing repository full_name"
  let owner ← orInvalid ((repo.idx "owner").idx "login").asStr "Missing repository owner"
  let description := (repo.idx "description").asStr
  let url ← orInvalid (repo.idx "html_url").asStr "Missing repository url"
  let is_private := ((repo.idx "private").asBool).getD false
  pure { github_id := github_id, name := name, full_name := full_name,
         owner := owner, description := description, url := url,
         is_private := is_private }

/-- Per-commit field extraction from the body of the loop in
`process_push_event`. -/
def extractCommit (L : Libs) (repository_id webhook_event_id : Int) (c : Json) :
    Except ProcessingError CreateCommit := do
  let sha ← orInvalid (c.idx "id").asStr "Missing commit sha"
  let message ← orInvalid (c.idx "message").asStr "Missing commit message"
  let author_name ← orInvalid ((c.idx "author").idx "name").asStr "Missing author name"
  let author_email ← orInvalid ((c.idx "author").idx "email").asStr "Missing author email"
  let committer_name ←
    orInvalid ((c.idx "committer").idx "name").asStr "Missing committer name"
  let committer_email ←
    orInvalid ((c.idx "committer").idx "email").asStr "Missing committer email"
  let timestamp_str ← orInvalid (c.idx "timestamp").asStr "Missing commit timestamp"
  let committed_at ← orInvalid (L.tparse timestamp_str) "Invalid timestamp format"
  let url ← orInvalid (c.idx "url").asStr "Missing commit url"
  pure { repository_id := repository_id, webhook_event_id := webhook_event_id,
         sha := sha, message := message, author_name := author_name,
         author_email := author_email, committer_name := committer_name,
         committer_email := committer_email, committed_at := committed_at,
         url := url }

/-- The `for commit_data in commits` loop of `process_push_event`: each
`Commit::create` is an immediate separate statement, so work done before
a failing entry stays committed. -/
def commitLoop (L : Libs) (t repository_id webhook_event_id : Int) :
    DB → List Json → Except ProcessingError Unit × DB
  | db, [] => (Except.ok (), db)
  | db, c :: rest =>
    match extractCommit L repository_id webhook_event_id c with
    | Except.error e => (Except.error e, db)
    | Except.ok cc =>
      commitLoop L t repository_id webhook_event_id (Commit.create db t cc).2 rest

/-- `process_push_event` in src/services/github.rs. -/
def process_push_event (L : Libs) (db : DB) (t : Int) (event : EventRow)
    (payload : Json) : Except ProcessingError Unit × DB :=
  match extract_repository payload with
  | Except.error e => (Except.error e, db)
  | Except.ok repo_data =>
    let rp := Repository.create db t repo_data
    match (payload.idx "commits").asArr with
    | none => (Except.error (ProcessingError.invalidPayload
        "Missing commits array in push event"), rp.2)
    | some commits => commitLoop L t rp.1.id event.id rp.2 commits

/-- Rust's wrapping `as i32` cast on an i64 value: keep the low 32 bits,
reinterpreted as signed. -/
def wrapI32 (n : Int) : Int := (n + 2147483648) % 4294967296 - 2147483648

/-- Field extraction of `process_pull_request_event` (everything between
`Repository::create` and `PullRequest::create`).  The source reads
`number` with `as_i64` and then casts `as i32` (a wrapping cast). -/
def extractPullRequest (L : Libs) (repository_id webhook_event_id : Int)
    (payload : Json) : Except ProcessingError CreatePullRequest := do
  let pr_data := payload.idx "pull_request"
  let github_id ← orInvalid (pr_data.idx "id").asInt "Missing PR id"
  let number64 ← orInvalid (pr_data.idx "number").asInt "Missing PR number"
  let number := wrapI32 number64
  let title ← orInvalid (pr_data.idx "title").asStr "Missing PR title"
  let state ← orInvalid (pr_data.idx "state").asStr "Missing PR state"
  let author ← orInvalid ((pr_data.idx "user").idx "login").asStr "Missing PR author"
  let base_branch ← orInvalid ((pr_data.idx "base").idx "ref").asStr "Missing base branch"
  let head_branch ← orInvalid ((pr_data.idx "head").idx "ref").asStr "Missing head branch"
  let url ← orInvalid (pr_data.idx "html_url").asStr "Missing PR url"
  let opened_at_str ← orInvalid (pr_data.idx "created_at").asStr "Missing PR created_at"
  let opened_at ← orInvalid (L.tparse opened_at_str) "Invalid timestamp format"
  let closed_at := ((pr_data.idx "closed_at").asStr).bind L.tparse
  let merged_at := ((pr_data.idx "merged_at").asStr).bind L.tparse
  pure { repository_id := repository_id, webhook_event_id := webhook_event_id,
         github_id := github_id, number := number, title := title,
         state := state, author := author, base_branch := base_branch,
         head_branch := head_branch, url := url, opened_at := opened_at,
         closed_at := closed_at, merged_at := merged_at }

/-- `process_pull_request_event` in src/services/github.rs: the
Repository upsert happens first and stays committed even when a later
required PR field is missing. -/
def process_pull_request_event (L : Libs) (db : DB) (t : Int) (event : EventRow)
    (payload : Json) : Except ProcessingError Unit × DB :=
  match extract_repository payload with
  | Except.error e => (Except.error e, db)
  | Except.ok repo_data =>
    let rp := Repository.create db t repo_data
    match extractPullRequest L rp.1.id event.id payload with
    | Except.error e => (Except.error e, rp.2)
    | Except.ok pr => (Except.ok (), (PullRequest.create rp.2 t pr).2)

/-- Field extraction of `process_issues_event`.  As for pull requests,
`number` is read with `as_i64` and cast `as i32` (wrapping). -/
def extractIssue (L : Libs) (repository_id webhook_event_id : Int) (payload : Json) :
    Except ProcessingError CreateIssue := do
  let issue_data := payload.idx "issue"
  let github_id ← orInvalid (issue_data.idx "id").asInt "Missing issue id"
  let number64 ← orInvalid (issue_data.idx "number").asInt "Missing issue number"
  let number := wrapI32 number64
  let title ← orInvalid (issue_data.idx "title").asStr "Missing issue title"
  let state ← orInvalid (issue_data.idx "state").asStr "Missing issue state"
  let author ← orInvalid ((issue_data.idx "user").idx "login").asStr "Missing issue author"
  let labels := (((issue_data.idx "labels").asArr).map
    (fun arr => arr.filterMap (fun l => (l.idx "name").asStr))).getD []
  let url ← orInvalid (issue_data.idx "html_url").asStr "Missing issue url"
  let opened_at_str ←
    orInvalid (issue_data.idx "created_at").asStr "Missing issue created_at"
  let opened_at ← orInvalid (L.tparse opened_at_str) "Invalid timestamp format"
  let closed_at := ((issue_data.idx "closed_at").asStr).bind L.tparse
  pure { repository_id := repository_id, webhook_event_id := webhook_event_id,
         github_id := github_id, number := number, title := title,
         state := state, author := author, labels := labels, url := url,
         opened_at := opened_at, closed_at := closed_at }

/-- `process_issues_event` in src/services/github.rs. -/
def process_issues_event (L : Libs) (db : DB) (t : Int) (event : EventRow)
    (payload : Json) : Except ProcessingError Unit × DB :=
  match extract_repository payload with
  | Except.error e => (Except.error e, db)
  | Except.ok repo_data =>
    let rp := Repository.create db t repo_data
    match extractIssue L rp.1.id event.id payload with
    | Except.error e => (Except.error e, rp.2)
    | Except.ok iss => (Except.ok (), (Issue.create rp.2 t iss).2)

/-- `process_github_event` in src/services/github.rs: dispatch on
`event_type` (a Rust `match` on string literals, modelled as an
if-chain), then `Event::mark_processed` — reached only when the branch
returned Ok, because `?` propagates the error first. -/
def process_github_event (L : Libs) (db : DB) (t : Int) (event : EventRow) :
    Except ProcessingError Unit × DB :=
  let payload := event.raw_event
  let step :=
    if event.event_type == "push" then process_push_event L db t event payload
    else if event.event_type == "pull_request" then
      process_pull_request_event L db t event payload
    else if event.event_type == "issues" then
      process_issues_event L db t event payload
    else (Except.ok (), db)
  match step.1 with
  | Except.error e => (Except.error e, step.2)
  | Except.ok _ => (Except.ok (), Event.mark_processed step.2 t event.id)

/-- `process_event_by_source` in src/handlers/webhook.rs: the
`"gitlab"`, `"auth0"` and catch-all arms all only log and call
`Event::mark_processed`. -/
def process_event_by_source (L : Libs) (db : DB) (t : Int) (event : EventRow)
    (source : String) : Except ProcessingError Unit × DB :=
  if source == "github" then process_github_event L db t event
  else (Except.ok (), Event.mark_processed db t event.id)

/-! ### HTTP layer (src/handlers/webhook.rs)

A request carries its raw body bytes, its headers, and `json`, the
result of `serde_json::from_slice` on the body (serde itself is a
library, so the parse result is part of the request model).  Actix
header lookup that fails `to_str` behaves like an absent header, so
header values are plain strings. -/

structure Request where
  headers : List (String × String)
  body : List Nat
  json : Option Json

def headerGet (req : Request) (name : String) : Option String :=
  (req.headers.find? (fun h => h.1 == name)).map Prod.snd

inductive Response where
  | ok (event_id : Int)
  | badRequest (msg : String)
  | unauthorized (msg : String)
deriving DecidableEq

/-- ASCII bytes of a header string (signatures are ASCII). -/
def strBytes (s : String) : List Nat := s.data.map Char.toNat

/-- `extract_delivery_id` in src/handlers/webhook.rs. -/
def extract_delivery_id (L : Libs) (req : Request) (source : String) : Option String :=
  if source == "github" then (headerGet req "X-GitHub-Delivery").bind L.uuidParse
  else if source == "gitlab" then (headerGet req "X-Gitlab-Event-UUID").bind L.uuidParse
  else none

/-- `extract_event_type` in src/handlers/webhook.rs. -/
def extract_event_type (source : String) (payload : Json) (req : Request) : String :=
  if source == "github" then
    (headerGet req "X-GitHub-Event").getD "unknown"
  else if source == "gitlab" then
    match headerGet req "X-Gitlab-Event" with
    | some s => s
    | none => ((payload.idx "object_kind").asStr).getD "unknown"
  else if source == "auth0" then
    (optOr ((payload.idx "type").asStr) ((payload.idx "event").asStr)).getD "unknown"
  else
    (optOr ((payload.idx "type").asStr)
      (optOr ((payload.idx "event").asStr)
        ((payload.idx "event_type").asStr))).getD "webhook"

/-- `extract_action` in src/handlers/webhook.rs (source-agnostic). -/
def extract_action (_source : String) (payload : Json) : Option String :=
  optOr ((payload.idx "action").asStr) ((payload.idx "event_action").asStr)

/-- `extract_signature` in src/handlers/webhook.rs. -/
def extract_signature (source : String) (req : Request) : Option String :=
  if source == "github" then headerGet req "X-Hub-Signature-256"
  else if source == "gitlab" then headerGet req "X-Gitlab-Token"
  else none

/-- `extract_actor_info` in src/handlers/webhook.rs (the per-source
variant used by the generic endpoint). -/
def extract_actor_info_generic (source : String) (payload : Json) :
    Option String × Option String × Option String :=
  if source == "github" then
    let name := optOr (((payload.idx "sender").idx "login").asStr)
      (((payload.idx "pusher").idx "name").asStr)
    let email := optOr (((payload.idx "sender").idx "email").asStr)
      (((payload.idx "pusher").idx "email").asStr)
    let id := optOr (((payload.idx "sender").idx "login").asStr)
      ((((payload.idx "sender").idx "id").asInt).map toString)
    (name, email, id)
  else if source == "gitlab" then
    let name := optOr ((payload.idx "user_username").asStr)
      (((payload.idx "user").idx "username").asStr)
    let email := optOr ((payload.idx "user_email").asStr)
      (((payload.idx "user").idx "email").asStr)
    let id := optOr (((payload.idx "user_id").asInt).map toString)
      ((((payload.idx "user").idx "id").asInt).map toString)
    (name, email, id)
  else if source == "auth0" then
    let name := optOr (((payload.idx "user").idx "name").asStr)
      (((payload.idx "user").idx "username").asStr)
    let email := ((payload.idx "user").idx "email").asStr
    let id := optOr (((payload.idx "user").idx "user_id").asStr)
      (((payload.idx "user").idx "id").asStr)
    (name, email, id)
  else
    let name := optOr ((payload.idx "actor").asStr)
      (optOr ((payload.idx "user").asStr) ((payload.idx "username").asStr))
    let email := (payload.idx "email").asStr
    let id := optOr ((payload.idx "actor_id").asStr) ((payload.idx "user_id").asStr)
    (name, email, id)

/-- `generic_webhook` in src/handlers/webhook.rs, up to the HTTP
response.  `freshUuid` stands for the `Uuid::new_v4()` fallback.  The
asynchronous `tokio::spawn` of `process_event_by_source` happens after
the response; it is composed separately in the theorems. -/
def generic_webhook (L : Libs) (secret : List Nat) (db : DB) (t : Int)
    (source : String) (req : Request) (freshUuid : String) : Response × DB :=
  let delivery_id := (extract_delivery_id L req source).getD freshUuid
  match req.json with
  | none => (Response.badRequest "Invalid JSON payload", db)
  | some payload =>
    let event_type := extract_event_type source payload req
    let action := extract_action source payload
    let signature := extract_signature source req
    let proceed : Unit → Response × DB := fun _ =>
      let actor := extract_actor_info_generic source payload
      let create_event : CreateEvent :=
        { source := source, event_type := event_type, action := action,
          actor_name := actor.1, actor_email := actor.2.1, actor_id := actor.2.2,
          raw_event := payload, delivery_id := delivery_id,
          signature := signature, repository_id := none }
      let er := Event.create db t create_event
      (Response.ok er.1.id, er.2)
    if source == "github" then
      match signature with
      | some sig =>
        if verify_github_signature secret req.body (strBytes sig) then proceed ()
        else (Response.unauthorized "Invalid signature", db)
      | none => (Response.unauthorized "Missing signature", db)
    else proceed ()

/-- `github_webhook` in src/handlers/webhook.rs (legacy endpoint): the
three headers are extracted first (400 on missing/invalid), then the
signature is verified over the raw body (401), and only then is the
body parsed as JSON (400).  Known deviation: when the payload has a
"repository" object, the source indexes the serde_json `Map` directly
(`repo["id"]`, `repo["full_name"]`), and `Map`'s `Index` impl PANICS on
a missing key — so a repository object lacking "id", or lacking
"full_name" when "id" is present, crashes the real handler.  The model
collapses that panic into null-propagating lookups (missing id → no
lookup; missing full_name → lookup by "").  The panic point lies
strictly after signature verification and JSON parsing, so the
ordering/authentication facts proved below hold of the real handler on
every input. -/
def github_webhook (L : Libs) (secret : List Nat) (db : DB) (t : Int)
    (req : Request) : Response × DB :=
  match headerGet req "X-GitHub-Event" with
  | none => (Response.badRequest "Missing X-GitHub-Event header", db)
  | some event_type =>
    match (headerGet req "X-GitHub-Delivery").bind L.uuidParse with
    | none => (Response.badRequest "Invalid X-GitHub-Delivery header", db)
    | some delivery_id =>
      match headerGet req "X-Hub-Signature-256" with
      | none => (Response.badRequest "Missing X-Hub-Signature-256 header", db)
      | some signature =>
        if verify_github_signature secret req.body (strBytes signature) then
          match req.json with
          | none => (Response.badRequest "Invalid JSON payload", db)
          | some payload =>
            let event_action := (payload.idx "action").asStr
            let repository_id :=
              if (payload.idx "repository").isObj then
                match ((payload.idx "repository").idx "id").asInt with
                | some _ =>
                  match Repository.find_by_full_name db
                      (((((payload.idx "repository").idx "full_name")).asStr).getD "") with
                  | some r => some r.id
                  | none => none
                | none => none
              else none
            let cwe : CreateWebhookEvent :=
              { repository_id := repository_id, event_type := event_type,
                event_action := event_action, delivery_id := delivery_id,
                payload := payload, signature := signature }
            let db1 := (WebhookEvent.create db t cwe).2
            let create_event := convert_github_webhook_to_event event_type
              event_action payload delivery_id (some signature) repository_id
            let er := Event.create db1 t create_event
            (Response.ok er.1.id, er.2)
        else (Response.unauthorized "Invalid signature", db)

/-! ### Filtered search and count (src/models/event.rs)

Both functions build their WHERE clause by conditionally appending the
same predicates in the same order; the appended conditions are
reified here, and their SQL semantics evaluated per row.  `ilikeSem`
stands for Postgres `raw_event::text ILIKE '%'||s||'%'` (serialization
and ILIKE are external); `action = $n` / `actor_name = $n` on a NULL
column is not a match, as in SQL. -/

inductive Cond where
  | bySource (s : String)
  | byType (s : String)
  | byAction (s : String)
  | byActor (s : String)
  | byProcessed (b : Bool)
  | byTextSearch (pat : String)

/-- The filter clauses appended by `Event::search_and_filter`. -/
def searchAndFilterConds (source event_type action actor_name : Option String)
    (processed : Option Bool) (search : Option String) : List Cond :=
  (match source with | some s => [Cond.bySource s] | none => []) ++
  (match event_type with | some s => [Cond.byType s] | none => []) ++
  (match action with | some s => [Cond.byAction s] | none => []) ++
  (match actor_name with | some s => [Cond.byActor s] | none => []) ++
  (match processed with | some b => [Cond.byProcessed b] | none => []) ++
  (match search with
   | some s => if s.isEmpty then [] else [Cond.byTextSearch s]
   | none => [])

/-- The filter clauses appended by `Event::count_filtered`. -/
def countFilteredConds (source event_type action actor_name : Option String)
    (processed : Option Bool) (search : Option String) : List Cond :=
  (match source with | some s => [Cond.bySource s] | none => []) ++
  (match event_type with | some s => [Cond.byType s] | none => []) ++
  (match action with | some s => [Cond.byAction s] | none => []) ++
  (match actor_name with | some s => [Cond.byActor s] | none => []) ++
  (match processed with | some b => [Cond.byProcessed b] | none => []) ++
  (match search with
   | some s => if s.isEmpty then [] else [Cond.byTextSearch s]
   | none => [])

def condMatches (ilikeSem : Json → String → Bool) (e : EventRow) : Cond → Bool
  | Cond.bySource s => e.source == s
  | Cond.byType s => e.event_type == s
  | Cond.byAction s => e.action == some s
  | Cond.byActor s => e.actor_name == some s
  | Cond.byProcessed b => e.processed == b
  | Cond.byTextSearch pat => ilikeSem e.raw_event pat

/-- `Event::search_and_filter`: WHERE, then ORDER BY received_at DESC,
then OFFSET/LIMIT. -/
def Event.search_and_filter (ilikeSem : Json → String → Bool) (db : DB)
    (source event_type action actor_name : Option String) (processed : Option Bool)
    (search : Option String) (limit offset : Nat) : List EventRow :=
  let conds := searchAndFilterConds source event_type action actor_name processed search
  ((((db.events.filter (fun e => conds.all (condMatches ilikeSem e))).mergeSort
      (fun a b => b.received_at ≤ a.received_at)).drop offset).take limit)

/-- `Event::count_filtered`: SELECT COUNT(*) under the same WHERE. -/
def Event.count_filtered (ilikeSem : Json → String → Bool) (db : DB)
    (source event_type action actor_name : Option String) (processed : Option Bool)
    (search : Option String) : Nat :=
  let conds := countFilteredConds source event_type action actor_name processed search
  (db.events.filter (fun e => conds.all (condMatches ilikeSem e))).length

/-! ### Shared helper lemmas: which tables each operation touches -/

theorem repoCreate_touch (db : DB) (t : Int) (d : CreateRepository) :
    ((Repository.create db t d).2).events = db.events ∧
    ((Repository.create db t d).2).commits = db.commits ∧
    ((Repository.create db t d).2).pull_requests = db.pull_requests ∧
    ((Repository.create db t d).2).issues = db.issues := by
  unfold Repository.create
  cases db.repositories.find? (fun r => r.github_id == d.github_id) <;>
    exact ⟨rfl, rfl, rfl, rfl⟩

theorem commitCreate_touch (db : DB) (t : Int) (d : CreateCommit) :
    ((Commit.create db t d).2).events = db.events ∧
    ((Commit.create db t d).2).repositories = db.repositories ∧
    ((Commit.create db t d).2).pull_requests = db.pull_requests ∧
    ((Commit.create db t d).2).issues = db.issues := by
  unfold Commit.create
  cases db.commits.find?
      (fun c => c.sha == d.sha && c.repository_id == d.repository_id) <;>
    exact ⟨rfl, rfl, rfl, rfl⟩

theorem prCreate_touch (db : DB) (t : Int) (d : CreatePullRequest) :
    ((PullRequest.create db t d).2).events = db.events ∧
    ((PullRequest.create db t d).2).commits = db.commits := by
  unfold PullRequest.create
  cases db.pull_requests.find? (fun p => p.github_id == d.github_id) <;>
    exact ⟨rfl, rfl⟩

theorem issueCreate_touch (db : DB) (t : Int) (d : CreateIssue) :
    ((Issue.create db t d).2).events = db.events ∧
    ((Issue.create db t d).2).commits = db.commits ∧
    ((Issue.create db t d).2).pull_requests = db.pull_requests := by
  unfold Issue.create
  cases db.issues.find? (fun i => i.github_id == d.github_id) <;>
    exact ⟨rfl, rfl, rfl⟩

theorem commitLoop_touch (L : Libs) (t rid wid : Int) (cs : List Json) :
    ∀ db : DB, ((commitLoop L t rid wid db cs).2).events = db.events ∧
      ((commitLoop L t rid wid db cs).2).repositories = db.repositories ∧
      ((commitLoop L t rid wid db cs).2).pull_requests = db.pull_requests := by
  induction cs with
  | nil => intro db; exact ⟨rfl, rfl, rfl⟩
  | cons c rest ih =>
    intro db
    unfold commitLoop
    cases extractCommit L rid wid c with
    | error e => exact ⟨rfl, rfl, rfl⟩
    | ok cc =>
      have h1 := ih (Commit.create db t cc).2
      have h2 := commitCreate_touch db t cc
      exact ⟨h1.1.trans h2.1, h1.2.1.trans h2.2.1, h1.2.2.trans h2.2.2.1⟩

theorem push_touch (L : Libs) (db : DB) (t : Int) (ev : EventRow) (p : Json) :
    ((process_push_event L db t ev p).2).events = db.events ∧
    ((process_push_event L db t ev p).2).pull_requests = db.pull_requests := by
  unfold process_push_event
  cases extract_repository p with
  | error e => exact ⟨rfl, rfl⟩
  | ok rd =>
    cases (p.idx "commits").asArr with
    | none =>
      have h := repoCreate_touch db t rd
      exact ⟨h.1, h.2.2.1⟩
    | some cs =>
      have h := repoCreate_touch db t rd
      have h2 := commitLoop_touch L t (Repository.create db t rd).1.id ev.id cs
        (Repository.create db t rd).2
      exact ⟨h2.1.trans h.1, h2.2.2.trans h.2.2.1⟩

theorem pull_request_touch (L : Libs) (db : DB) (t : Int) (ev : EventRow) (p : Json) :
    ((process_pull_request_event L db t ev p).2).events = db.events ∧
    ((process_pull_request_event L db t ev p).1.isOk = false →
      ((process_pull_request_event L db t ev p).2).pull_requests = db.pull_requests) := by
  unfold process_pull_request_event
  cases extract_repository p with
  | error e => exact ⟨rfl, fun _ => rfl⟩
  | ok rd =>
    dsimp only
    cases extractPullRequest L (Repository.create db t rd).1.id ev.id p with
    | error e =>
      have h := repoCreate_touch db t rd
      exact ⟨h.1, fun _ => h.2.2.1⟩
    | ok pr =>
      have h := repoCreate_touch db t rd
      have h2 := prCreate_touch (Repository.create db t rd).2 t pr
      exact ⟨h2.1.trans h.1, fun hk => absurd hk (by simp [Except.isOk, Except.toBool])⟩

theorem issues_touch (L : Libs) (db : DB) (t : Int) (ev : EventRow) (p : Json) :
    ((process_issues_event L db t ev p).2).events = db.events ∧
    ((process_issues_event L db t ev p).2).pull_requests = db.pull_requests := by
  unfold process_issues_event
  cases extract_repository p with
  | error e => exact ⟨rfl, rfl⟩
  | ok rd =>
    dsimp only
    cases extractIssue L (Repository.create db t rd).1.id ev.id p with
    | error e =>
      have h := repoCreate_touch db t rd
      exact ⟨h.1, h.2.2.1⟩
    | ok iss =>
      have h := repoCreate_touch db t rd
      have h2 := issueCreate_touch (Repository.create db t rd).2 t iss
      exact ⟨h2.1.trans h.1, h2.2.2.trans h.2.2.1⟩

/-! ### Shared concrete instances used by witnesses and counterexamples -/

/-- A concrete choice of library oracles: every timestamp string parses
to 0, every uuid string is already canonical. -/
def L0 : Libs := ⟨fun _ => some 0, fun s => some s⟩

def evUnrecognized : EventRow :=
  { id := 1, source := "custom-ci", event_type := "deployment", action := none,
    actor_name := none, actor_email := none, actor_id := none,
    raw_event := Json.null, delivery_id := "d", signature := none,
    received_at := 0, processed := false, processed_at := none,
    repository_id := none }

def dbUnrecognized : DB := { DB.empty with events := [evUnrecognized] }

/-- C6: For every stored event whose event_type is not one of "push",
"pull_request", or "issues" (and for every non-github source routed
through process_event_by_source), processing performs no projection — no
Repository, Commit, PullRequest, or Issue row is created or updated —
and the event is still marked processed.  (`Event.mark_processed` only
touches the `events` table, so equality of the final state with
`Event.mark_processed db t ev.id` says exactly that.) -/
theorem c6_unrecognized_no_projection (L : Libs) (db : DB) (t : Int)
    (ev : EventRow) (source : String)
    (h1 : ev.event_type ≠ "push") (h2 : ev.event_type ≠ "pull_request")
    (h3 : ev.event_type ≠ "issues") (hsrc : source ≠ "github") :
    process_github_event L db t ev = (Except.ok (), Event.mark_processed db t ev.id) ∧
    process_event_by_source L db t ev source =
      (Except.ok (), Event.mark_processed db t ev.id) := by
  constructor
  · unfold process_github_event
    simp [h1, h2, h3]
  · unfold process_event_by_source
    simp [hsrc]

/-- Witness for C6 at the spec's own end-to-end example: an event of
type "deployment" arriving from source "custom-ci". -/
theorem c6_witness :
    process_event_by_source L0 dbUnrecognized 0 evUnrecognized "custom-ci" =
      (Except.ok (), Event.mark_processed dbUnrecognized 0 evUnrecognized.id) :=
  (c6_unrecognized_no_projection L0 dbUnrecognized 0 evUnrecognized "custom-ci"
    (by decide) (by decide) (by decide) (by decide)).2

/-- C9: `mark_processed` is idempotent: a repeated call (at any later
database clock) leaves the same state as a single call, repeated calls
never fail (the operation is total and a missing id is a no-op), and
after a call every event row with the targeted id has processed = true
unconditionally. -/
theorem c9_mark_processed_idempotent (db : DB) (t1 t2 id : Int) :
    Event.mark_processed (Event.mark_processed db t1 id) t2 id =
      Event.mark_processed db t2 id ∧
    (((Event.mark_processed db t1 id).events.filter (fun e => e.id == id)).all
      (fun e => e.processed)) = true := by
  constructor
  · unfold Event.mark_processed
    simp only [List.map_map]
    congr 1
    apply List.map_congr_left
    intro e _
    by_cases h : e.id = id
    · simp only [Function.comp_apply, h, beq_self_eq_true, if_pos]
    · simp only [Function.comp_apply, beq_iff_eq, h, if_neg, not_false_iff]
  · rw [List.all_eq_true]
    intro e' he'
    rw [List.mem_filter] at he'
    obtain ⟨hmem, hid⟩ := he'
    unfold Event.mark_processed at hmem
    simp only [List.mem_map] at hmem
    obtain ⟨e, _, rfl⟩ := hmem
    by_cases h : e.id = id
    · simp [h]
    · simp [h] at hid

/-- The two query builders append exactly the same predicate list. -/
theorem conds_agree (source event_type action actor_name : Option String)
    (processed : Option Bool) (search : Option String) :
    searchAndFilterConds source event_type action actor_name processed search =
    countFilteredConds source event_type action actor_name processed search := rfl

/-- C5: for every combination of the optional predicates,
`count_filtered` equals the length of `search_and_filter` with the same
predicates, offset 0 and a limit at least as large as the count
(an unbounded limit).  Holds for any ILIKE semantics because both build
identical conditions. -/
theorem c5_count_eq_search_length (ilikeSem : Json → String → Bool) (db : DB)
    (source event_type action actor_name : Option String)
    (processed : Option Bool) (search : Option String) (limit : Nat)
    (h : Event.count_filtered ilikeSem db source event_type action actor_name
      processed search ≤ limit) :
    Event.count_filtered ilikeSem db source event_type action actor_name
      processed search =
    (Event.search_and_filter ilikeSem db source event_type action actor_name
      processed search limit 0).length := by
  unfold Event.count_filtered at h ⊢
  unfold Event.search_and_filter
  dsimp only at h ⊢
  rw [← conds_agree] at h ⊢
  rw [List.drop_zero, List.length_take, (List.mergeSort_perm _ _).length_eq]
  exact (Nat.min_eq_right h).symm

def dbOneEvent : DB := { DB.empty with events := [evUnrecognized] }

/-- Witness for C5 on a one-event store with a source predicate and
limit 5. -/
theorem c5_witness :
    Event.count_filtered (fun _ _ => true) dbOneEvent (some "custom-ci") none
      none none none none =
    (Event.search_and_filter (fun _ _ => true) dbOneEvent (some "custom-ci")
      none none none none none 5 0).length :=
  c5_count_eq_search_length (fun _ _ => true) dbOneEvent (some "custom-ci")
    none none none none none 5 (by decide)

/-- Reference formulation of the claimed per-source preference order for
event-type extraction, written as the spec words it: github takes the
X-GitHub-Event header else "unknown"; gitlab takes the X-Gitlab-Event
header, else the payload field object_kind, else "unknown"; auth0 takes
the payload fields type then event, else "unknown"; every other source
takes type, then event, then event_type, else "webhook". -/
def extractEventTypeRef (source : String) (payload : Json) (req : Request) : String :=
  if source == "github" then
    (headerGet req "X-GitHub-Event").getD "unknown"
  else if source == "gitlab" then
    (optOr (headerGet req "X-Gitlab-Event") ((payload.idx "object_kind").asStr)).getD
      "unknown"
  else if source == "auth0" then
    (optOr ((payload.idx "type").asStr) ((payload.idx "event").asStr)).getD "unknown"
  else
    (optOr ((payload.idx "type").asStr)
      (optOr ((payload.idx "event").asStr)
        ((payload.idx "event_type").asStr))).getD "webhook"

/-- C8: `extract_event_type` is total (it is a function into `String`)
and for every source, payload and header set it realises exactly the
claimed per-source preference order. -/
theorem c8_extract_event_type_order (source : String) (payload : Json)
    (req : Request) :
    extract_event_type source payload req = extractEventTypeRef source payload req := by
  unfold extract_event_type extractEventTypeRef
  rcases h : headerGet req "X-Gitlab-Event" with _ | s <;>
    simp [optOr]

/-- C2 (amended): on the generic endpoint with source "github", when the
request body parses as JSON, a missing or non-verifying
X-Hub-Signature-256 header yields a 401 with the store untouched; when
the body does not parse, no event is persisted either (the response is
then the earlier 400); and for every source other than "github" the
result does not depend on the configured secret (no verification is
performed) and a parseable request proceeds to persistence. -/
theorem c2_generic_auth (L : Libs) (secret : List Nat) (db : DB) (t : Int)
    (req : Request) (fresh : String) :
    (∀ p, req.json = some p →
      (extract_signature "github" req = none →
        generic_webhook L secret db t "github" req fresh =
          (Response.unauthorized "Missing signature", db)) ∧
      (∀ sig, extract_signature "github" req = some sig →
        verify_github_signature secret req.body (strBytes sig) = false →
        generic_webhook L secret db t "github" req fresh =
          (Response.unauthorized "Invalid signature", db))) ∧
    (req.json = none →
      (generic_webhook L secret db t "github" req fresh).2 = db) ∧
    (∀ source, source ≠ "github" → ∀ p, req.json = some p →
      (∀ secret2, generic_webhook L secret db t source req fresh =
        generic_webhook L secret2 db t source req fresh) ∧
      (generic_webhook L secret db t source req fresh).1 =
        Response.ok (Int.ofNat db.events.length + 1) ∧
      (generic_webhook L secret db t source req fresh).2.events.length =
        db.events.length + 1) := by
  refine ⟨?_, ?_, ?_⟩
  · intro p hp
    constructor
    · intro hs
      unfold generic_webhook
      simp only [hp, hs]
      simp
    · intro sig hs hv
      unfold generic_webhook
      simp only [hp, hs]
      simp [hv]
  · intro hn
    unfold generic_webhook
    simp only [hn]
  · intro source hsrc p hp
    refine ⟨?_, ?_, ?_⟩
    · intro secret2
      unfold generic_webhook
      simp only [hp]
      simp [hsrc]
    · unfold generic_webhook
      simp only [hp]
      simp [hsrc, Event.create]
    · unfold generic_webhook
      simp only [hp]
      simp [hsrc, Event.create]

def reqBadJson : Request := ⟨[], [123], none⟩

/-- C2 counterexample: source "github", no signature header, body that
is not valid JSON.  The claim predicts a 401 (signature missing), but
the generic handler parses the body first and answers 400. -/
theorem c2_counterexample :
    extract_signature "github" reqBadJson = none ∧
    generic_webhook L0 [107] DB.empty 0 "github" reqBadJson "d" =
      (Response.badRequest "Invalid JSON payload", DB.empty) :=
  ⟨rfl, rfl⟩

def reqJsonNoSig : Request := ⟨[], [], some Json.null⟩

/-- Witness for C2: missing signature on parseable github traffic is
rejected 401 with nothing persisted; the same request through source
"custom-ci" is accepted and persisted as event 1. -/
theorem c2_witness :
    generic_webhook L0 [107] DB.empty 0 "github" reqJsonNoSig "d" =
      (Response.unauthorized "Missing signature", DB.empty) ∧
    (generic_webhook L0 [107] DB.empty 0 "custom-ci" reqJsonNoSig "d").1 =
      Response.ok 1 := by
  constructor
  · exact ((c2_generic_auth L0 [107] DB.empty 0 reqJsonNoSig "d").1 Json.null rfl).1 rfl
  · have h := (((c2_generic_auth L0 [107] DB.empty 0 reqJsonNoSig "d").2.2)
      "custom-ci" (by decide) Json.null rfl).2.1
    simpa using h

/-- C10: on the legacy GitHub endpoint, once the three required headers
are present, a failing signature check yields 401 with nothing persisted
regardless of whether the body is valid JSON; and the invalid-JSON 400
can only be produced after the signature verified. -/
theorem c10_legacy_sig_before_parse (L : Libs) (secret : List Nat) (db : DB)
    (t : Int) (req : Request) (et d s : String)
    (h1 : headerGet req "X-GitHub-Event" = some et)
    (h2 : (headerGet req "X-GitHub-Delivery").bind L.uuidParse = some d)
    (h3 : headerGet req "X-Hub-Signature-256" = some s) :
    (verify_github_signature secret req.body (strBytes s) = false →
      github_webhook L secret db t req =
        (Response.unauthorized "Invalid signature", db)) ∧
    ((github_webhook L secret db t req).1 =
        Response.badRequest "Invalid JSON payload" →
      verify_github_signature secret req.body (strBytes s) = true) := by
  unfold github_webhook
  simp only [h1, h2, h3]
  cases hv : verify_github_signature secret req.body (strBytes s) with
  | false =>
    constructor
    · intro _
      simp
    · intro hcon
      simp at hcon
  | true =>
    constructor
    · intro hf
      exact Bool.noConfusion hf
    · intro _
      rfl

def reqLegacyBadSig : Request :=
  ⟨[("X-GitHub-Event", "push"), ("X-GitHub-Delivery", "u"),
    ("X-Hub-Signature-256", "oops")], [], some Json.null⟩

/-- Witness for C10: all three headers present, malformed signature →
401 and the store untouched, although the body was valid JSON. -/
theorem c10_witness :
    github_webhook L0 [107] DB.empty 0 reqLegacyBadSig =
      (Response.unauthorized "Invalid signature", DB.empty) :=
  (c10_legacy_sig_before_parse L0 [107] DB.empty 0 reqLegacyBadSig
    "push" "u" "oops" rfl rfl rfl).1 (by decide)

/-- C3 (amended): whenever projection of a stored event fails (missing
required field or unparseable required timestamp), `mark_processed` is
never reached — the events table, and with it the processed flag, is
exactly as before — and no PullRequest row, partial or otherwise, is
written.  (Unlike the original claim, domain rows upserted by the steps
that preceded the failure — the Repository upsert, and for push events
the Commit rows of entries before the failing one — remain committed;
see the counterexample.) -/
theorem c3_error_aborts_before_mark (L : Libs) (db : DB) (t : Int)
    (ev : EventRow) (e : ProcessingError)
    (h : (process_github_event L db t ev).1 = Except.error e) :
    ((process_github_event L db t ev).2).events = db.events ∧
    ((process_github_event L db t ev).2).pull_requests = db.pull_requests := by
  unfold process_github_event at h ⊢
  by_cases h1 : ev.event_type = "push"
  · simp only [h1, beq_self_eq_true, if_pos] at h ⊢
    cases hstep : (process_push_event L db t ev ev.raw_event).1 with
    | error e2 =>
      simp only [hstep] at h ⊢
      exact push_touch L db t ev ev.raw_event
    | ok u => simp [hstep] at h
  · simp only [beq_iff_eq, h1, if_neg, not_false_iff] at h ⊢
    by_cases h2 : ev.event_type = "pull_request"
    · simp only [h2, beq_self_eq_true, if_pos] at h ⊢
      cases hstep : (process_pull_request_event L db t ev ev.raw_event).1 with
      | error e2 =>
        simp only [hstep] at h ⊢
        have hp := pull_request_touch L db t ev ev.raw_event
        exact ⟨hp.1, hp.2 (by simp [hstep, Except.isOk, Except.toBool])⟩
      | ok u => simp [hstep] at h
    · simp only [beq_iff_eq, h2, if_neg, not_false_iff] at h ⊢
      by_cases h3 : ev.event_type = "issues"
      · simp only [h3, beq_self_eq_true, if_pos] at h ⊢
        cases hstep : (process_issues_event L db t ev ev.raw_event).1 with
        | error e2 =>
          simp only [hstep] at h ⊢
          exact issues_touch L db t ev ev.raw_event
        | ok u => simp [hstep] at h
      · simp only [beq_iff_eq, h3, if_neg, not_false_iff] at h ⊢
        simp at h

/-- A pull_request payload with a complete repository object but no
`pull_request.base` (hence no `base.ref`). -/
def prPayloadNoBase : Json := Json.obj
  [("repository", Json.obj
      [("id", Json.num 7), ("name", Json.str "r"),
       ("full_name", Json.str "o/r"),
       ("owner", Json.obj [("login", Json.str "o")]),
       ("html_url", Json.str "https://example.com/o/r")]),
   ("pull_request", Json.obj
      [("id", Json.num 99), ("number", Json.num 4),
       ("title", Json.str "t"), ("state", Json.str "open"),
       ("user", Json.obj [("login", Json.str "a")]),
       ("head", Json.obj [("ref", Json.str "feature")]),
       ("html_url", Json.str "https://example.com/o/r/pull/4"),
       ("created_at", Json.str "2024-01-01T00:00:00Z")])]

def evPrNoBase : EventRow :=
  { id := 1, source := "github", event_type := "pull_request",
    action := some "opened", actor_name := none, actor_email := none,
    actor_id := none, raw_event := prPayloadNoBase, delivery_id := "d",
    signature := none, received_at := 0, processed := false,
    processed_at := none, repository_id := none }

def dbPrNoBase : DB := { DB.empty with events := [evPrNoBase] }

/-- C3 counterexample: projecting a pull_request event whose payload
lacks `pull_request.base.ref` aborts with "Missing base branch" and
writes no PullRequest row, and the event stays unprocessed — but a
Repository row HAS been committed by the upsert that ran before the
failing field extraction, so the projection did partially commit a
domain row, contrary to the claim. -/
theorem c3_counterexample :
    (process_github_event L0 dbPrNoBase 0 evPrNoBase).1 =
      Except.error (ProcessingError.invalidPayload "Missing base branch") ∧
    dbPrNoBase.repositories.length = 0 ∧
    ((process_github_event L0 dbPrNoBase 0 evPrNoBase).2).repositories.length = 1 ∧
    ((process_github_event L0 dbPrNoBase 0 evPrNoBase).2).pull_requests = [] ∧
    ((process_github_event L0 dbPrNoBase 0 evPrNoBase).2).events.all
      (fun e => !e.processed) = true :=
  ⟨rfl, rfl, rfl, rfl, rfl⟩

/-- Witness for C3 (amended) at the same failing event. -/
theorem c3_witness :
    ((process_github_event L0 dbPrNoBase 0 evPrNoBase).2).events =
      dbPrNoBase.events ∧
    ((process_github_event L0 dbPrNoBase 0 evPrNoBase).2).pull_requests =
      dbPrNoBase.pull_requests :=
  c3_error_aborts_before_mark L0 dbPrNoBase 0 evPrNoBase
    (ProcessingError.invalidPayload "Missing base branch") rfl

/-! ### Lemmas about the signature verifier -/

theorem stripTag_of_append (ts rest : List Nat) :
    stripTag ts (ts ++ rest) = some rest := by
  induction ts with
  | nil => rfl
  | cons t ts ih => simp [stripTag, ih]

theorem stripTag_eq_some (ts : List Nat) :
    ∀ l r : List Nat, stripTag ts l = some r ↔ l = ts ++ r := by
  induction ts with
  | nil =>
    intro l r
    simp [stripTag]
  | cons t ts ih =>
    intro l r
    cases l with
    | nil => simp [stripTag]
    | cons c cs =>
      simp only [stripTag, List.cons_append, List.cons.injEq]
      by_cases h : t = c
      · subst h
        simp [ih]
      · rw [if_neg h]
        simp only [false_iff, reduceCtorEq]
        intro hc
        exact h hc.1.symm

theorem hexVal_hexDigitByte (x : Nat) (h : x < 16) :
    hexVal (hexDigitByte x) = some x := by
  unfold hexVal hexDigitByte
  by_cases h10 : x < 10
  · rw [if_pos h10, if_pos (by omega)]
    congr 1
    omega
  · rw [if_neg h10, if_neg (by omega), if_pos (by omega)]
    congr 1
    omega

theorem hexDecode_hexEncode (bs : List Nat) (h : ∀ b ∈ bs, b < 256) :
    hexDecode (hexEncode bs) = some bs := by
  induction bs with
  | nil => rfl
  | cons b rest ih =>
    have hb : b < 256 := h b (by simp)
    have h1 : b / 16 < 16 := by omega
    have h2 : b % 16 < 16 := by omega
    show hexDecode (hexDigitByte (b / 16) :: hexDigitByte (b % 16) :: hexEncode rest) = _
    simp only [hexDecode, hexVal_hexDigitByte _ h1, hexVal_hexDigitByte _ h2,
      ih (fun x hx => h x (List.mem_cons_of_mem _ hx))]
    congr 2
    omega

theorem sha256_bytes_lt (msg : List Nat) : ∀ b ∈ sha256 msg, b < 256 := by
  intro b hb
  unfold sha256 at hb
  simp only [List.mem_flatten, List.mem_map] at hb
  obtain ⟨l, ⟨w, _, rfl⟩, hbl⟩ := hb
  simp only [wordBytesBE, List.mem_cons, List.not_mem_nil, or_false] at hbl
  rcases hbl with h | h | h | h <;> subst h <;> omega

theorem hmacSha256_bytes_lt (key msg : List Nat) :
    ∀ b ∈ hmacSha256 key msg, b < 256 := by
  intro b hb
  unfold hmacSha256 at hb
  exact sha256_bytes_lt _ b hb

/-- C7: `verify_github_signature` returns false for every signature that
does not start with the byte string "sha256=", and for every signature
whose portion after that tag is not valid hexadecimal. -/
theorem c7_rejects_malformed (secret payload signature : List Nat) :
    ((∀ rest, signature ≠ sigTag ++ rest) →
      verify_github_signature secret payload signature = false) ∧
    (∀ hexPart, signature = sigTag ++ hexPart → hexDecode hexPart = none →
      verify_github_signature secret payload signature = false) := by
  constructor
  · intro hno
    unfold verify_github_signature
    cases hs : stripTag sigTag signature with
    | none => rfl
    | some r => exact absurd ((stripTag_eq_some sigTag signature r).1 hs) (hno r)
  · intro hexPart heq hdec
    subst heq
    unfold verify_github_signature
    rw [stripTag_of_append]
    dsimp only
    rw [hdec]

/-- Witness for C7: a signature without the prefix, and one whose hex
part contains the non-hex byte 'g'. -/
theorem c7_witness :
    verify_github_signature [107] [98] [120] = false ∧
    verify_github_signature [107] [98] (sigTag ++ [103]) = false := by
  constructor
  · exact (c7_rejects_malformed [107] [98] [120]).1
      (by intro rest h; simp [sigTag] at h)
  · exact (c7_rejects_malformed [107] [98] (sigTag ++ [103])).2 [103] rfl (by decide)

/-- C1 (amended): the canonical signature "sha256=" ++ lowercase-hex of
HMAC-SHA256(secret, body) always verifies, and verification succeeds for
exactly the signatures whose hex part decodes — case-insensitively — to
HMAC-SHA256(secret, body).  Consequently every alteration of body or
signature that changes the decoded digest or breaks the format makes
verification return false, but a bit flip that only toggles the case of
a hex letter in the signature is still accepted (hex::decode accepts
both cases), refuting the original "any single bit flip" clause; a body
bit flip falsifies verification exactly when it changes the HMAC. -/
theorem c1_verify_characterization (secret body : List Nat) :
    verify_github_signature secret body
      (sigTag ++ hexEncode (hmacSha256 secret body)) = true ∧
    ∀ signature : List Nat,
      (verify_github_signature secret body signature = true ↔
        ∃ hexPart, signature = sigTag ++ hexPart ∧
          hexDecode hexPart = some (hmacSha256 secret body)) := by
  have hchar : ∀ signature : List Nat,
      (verify_github_signature secret body signature = true ↔
        ∃ hexPart, signature = sigTag ++ hexPart ∧
          hexDecode hexPart = some (hmacSha256 secret body)) := by
    intro signature
    unfold verify_github_signature
    cases hstrip : stripTag sigTag signature with
    | none =>
      constructor
      · intro h
        exact Bool.noConfusion h
      · rintro ⟨hp, rfl, _⟩
        rw [stripTag_of_append] at hstrip
        exact Option.noConfusion hstrip
    | some hp =>
      have hsig : signature = sigTag ++ hp := (stripTag_eq_some sigTag signature hp).1 hstrip
      dsimp only
      cases hdec : hexDecode hp with
      | none =>
        constructor
        · intro h
          exact Bool.noConfusion h
        · rintro ⟨hp2, heq, hdec2⟩
          rw [hsig] at heq
          have : hp2 = hp := (List.append_cancel_left heq).symm
          subst this
          rw [hdec] at hdec2
          exact Option.noConfusion hdec2
      | some bs =>
        dsimp only
        constructor
        · intro h
          refine ⟨hp, hsig, ?_⟩
          rw [hdec]
          exact congrArg some (eq_of_beq h).symm
        · rintro ⟨hp2, heq, hdec2⟩
          rw [hsig] at heq
          have : hp2 = hp := (List.append_cancel_left heq).symm
          subst this
          rw [hdec] at hdec2
          have hbs : bs = hmacSha256 secret body := Option.some.inj hdec2
          rw [hbs]
          exact beq_self_eq_true _
  constructor
  · rw [hchar]
    exact ⟨hexEncode (hmacSha256 secret body), rfl,
      hexDecode_hexEncode _ (hmacSha256_bytes_lt secret body)⟩
  · exact hchar

/-- The canonical signature for secret byte 107 ('k') and body byte 98
('b'): "sha256=2fb39898cf6b..." as ASCII bytes. -/
def c1SigGood : List Nat := sigTag ++ hexEncode (hmacSha256 [107] [98])

/-- Flip bit `k` of the byte at index `i`. -/
def flipBitAt (l : List Nat) (i k : Nat) : List Nat :=
  l.set i ((l.getD i 0) ^^^ (1 <<< k))

/-- `c1SigGood` with one single bit flipped: bit 5 of the byte at index
8, turning the hex digit 'f' (0x66) into 'F' (0x46). -/
def c1SigFlip : List Nat := flipBitAt c1SigGood 8 5

set_option maxRecDepth 40000 in
/-- C1 counterexample: the canonical signature for a concrete
(secret, body) verifies, and flipping a single bit of it — the case bit
of a hex letter — still verifies, because hex decoding is
case-insensitive; the claim says any single bit flip must yield false. -/
theorem c1_counterexample :
    c1SigFlip = flipBitAt c1SigGood 8 5 ∧
    c1SigFlip ≠ c1SigGood ∧
    verify_github_signature [107] [98] c1SigGood = true ∧
    verify_github_signature [107] [98] c1SigFlip = true :=
  ⟨rfl, by decide, by decide, by decide⟩

/-! ### Lemmas for push redelivery (C4) -/

theorem bind_orInvalid {α β : Type} (o : Option α) (msg : String)
    (f : α → Except ProcessingError β) :
    (orInvalid o msg >>= f) = match o with
      | some a => f a
      | none => Except.error (ProcessingError.invalidPayload msg) := by
  cases o <;> rfl

/-- A successful per-commit extraction pins `repository_id` and
`webhook_event_id`, and succeeds for any other event id with only that
field changed. -/
theorem extractCommit_analysis (L : Libs) (rid e : Int) (c : Json)
    (cc : CreateCommit) (h : extractCommit L rid e c = Except.ok cc) :
    cc.repository_id = rid ∧ cc.webhook_event_id = e ∧
    ∀ e2, extractCommit L rid e2 c = Except.ok { cc with webhook_event_id := e2 } := by
  unfold extractCommit at h ⊢
  simp only [bind_orInvalid] at h ⊢
  repeat' split at h
  all_goals try simp_all
  injection h with h2
  subst h2
  exact ⟨rfl, rfl, fun e2 => rfl⟩

/-- A commit row with natural key `(sha, rid)` is present. -/
def commitKeyIn (cs : List CommitRow) (sha : String) (rid : Int) : Prop :=
  ∃ x ∈ cs, x.sha = sha ∧ x.repository_id = rid

theorem Commit.create_key_added (db : DB) (t : Int) (d : CreateCommit) :
    commitKeyIn ((Commit.create db t d).2).commits d.sha d.repository_id := by
  unfold Commit.create
  cases hf : db.commits.find?
      (fun c => c.sha == d.sha && c.repository_id == d.repository_id) with
  | some c =>
    have hp := List.find?_some hf
    simp only [Bool.and_eq_true, beq_iff_eq] at hp
    refine ⟨{ c with
      message := d.message, author_name := d.author_name,
      author_email := d.author_email, committer_name := d.committer_name,
      committer_email := d.committer_email, committed_at := d.committed_at,
      url := d.url }, ?_, hp.1, hp.2⟩
    simp only [List.mem_map]
    exact ⟨c, List.mem_of_find?_eq_some hf, by simp [hp.1, hp.2]⟩
  | none =>
    exact ⟨_, List.mem_append_right _ (List.mem_singleton.mpr rfl), rfl, rfl⟩

theorem Commit.create_key_preserved (db : DB) (t : Int) (d : CreateCommit)
    (sha : String) (rid : Int) (h : commitKeyIn db.commits sha rid) :
    commitKeyIn ((Commit.create db t d).2).commits sha rid := by
  obtain ⟨x, hx, h1, h2⟩ := h
  unfold Commit.create
  cases hf : db.commits.find?
      (fun c => c.sha == d.sha && c.repository_id == d.repository_id) with
  | some c =>
    by_cases hc : (x.sha == d.sha && x.repository_id == d.repository_id) = true
    · refine ⟨{ x with
        message := d.message, author_name := d.author_name,
        author_email := d.author_email, committer_name := d.committer_name,
        committer_email := d.committer_email, committed_at := d.committed_at,
        url := d.url }, ?_, h1, h2⟩
      simp only [List.mem_map]
      exact ⟨x, hx, by simp [hc]⟩
    · refine ⟨x, ?_, h1, h2⟩
      simp only [List.mem_map]
      exact ⟨x, hx, by simp [hc]⟩
  | none =>
    exact ⟨x, List.mem_append_left _ hx, h1, h2⟩

theorem Commit.create_length_of_key (db : DB) (t : Int) (d : CreateCommit)
    (h : commitKeyIn db.commits d.sha d.repository_id) :
    ((Commit.create db t d).2).commits.length = db.commits.length := by
  unfold Commit.create
  cases hf : db.commits.find?
      (fun c => c.sha == d.sha && c.repository_id == d.repository_id) with
  | some c => simp
  | none =>
    obtain ⟨x, hx, h1, h2⟩ := h
    have := List.find?_eq_none.mp hf x hx
    simp [h1, h2] at this

theorem commitLoop_key_preserved (L : Libs) (t rid wid : Int) (sha : String)
    (r : Int) : ∀ (cs : List Json) (db : DB), commitKeyIn db.commits sha r →
    commitKeyIn ((commitLoop L t rid wid db cs).2).commits sha r := by
  intro cs
  induction cs with
  | nil => intro db h; exact h
  | cons c rest ih =>
    intro db h
    unfold commitLoop
    cases extractCommit L rid wid c with
    | error e => exact h
    | ok cc => exact ih _ (Commit.create_key_preserved db t cc sha r h)

/-- After a successful first commit loop, every entry extracted
successfully and its key is present in the final commits table. -/
theorem commitLoop_first_run (L : Libs) (t rid wid : Int) :
    ∀ (cs : List Json) (db : DB),
    (commitLoop L t rid wid db cs).1 = Except.ok () →
    ∀ c ∈ cs, ∃ cc, extractCommit L rid wid c = Except.ok cc ∧
      commitKeyIn ((commitLoop L t rid wid db cs).2).commits cc.sha rid := by
  intro cs
  induction cs with
  | nil => intro db _ c hc; exact absurd hc (List.not_mem_nil c)
  | cons c0 rest ih =>
    intro db hok c hc
    unfold commitLoop at hok ⊢
    cases hec : extractCommit L rid wid c0 with
    | error e => rw [hec] at hok; exact Except.noConfusion hok
    | ok cc0 =>
      rw [hec] at hok
      rcases List.mem_cons.mp hc with hceq | hcrest
      · subst hceq
        refine ⟨cc0, hec, ?_⟩
        have hadd := Commit.create_key_added db t cc0
        have hrid := (extractCommit_analysis L rid wid c cc0 hec).1
        rw [hrid] at hadd
        exact commitLoop_key_preserved L t rid wid cc0.sha rid rest _ hadd
      · exact ih (Commit.create db t cc0).2 hok c hcrest

/-- A commit loop over entries whose keys are all already present
succeeds and leaves the commit count unchanged. -/
theorem commitLoop_second_run (L : Libs) (t rid wid : Int) :
    ∀ (cs : List Json) (db : DB),
    (∀ c ∈ cs, ∃ cc, extractCommit L rid wid c = Except.ok cc ∧
      commitKeyIn db.commits cc.sha rid) →
    (commitLoop L t rid wid db cs).1 = Except.ok () ∧
    ((commitLoop L t rid wid db cs).2).commits.length = db.commits.length := by
  intro cs
  induction cs with
  | nil => intro db _; exact ⟨rfl, rfl⟩
  | cons c0 rest ih =>
    intro db h
    obtain ⟨cc0, hec, hkey⟩ := h c0 (List.mem_cons_self c0 rest)
    unfold commitLoop
    rw [hec]
    have hrid := (extractCommit_analysis L rid wid c0 cc0 hec).1
    have hlen : ((Commit.create db t cc0).2).commits.length = db.commits.length := by
      apply Commit.create_length_of_key
      rw [hrid]
      exact hkey
    have hrest : ∀ c ∈ rest, ∃ cc, extractCommit L rid wid c = Except.ok cc ∧
        commitKeyIn ((Commit.create db t cc0).2).commits cc.sha rid := by
      intro c hc
      obtain ⟨cc, hec2, hkey2⟩ := h c (List.mem_cons_of_mem c0 hc)
      exact ⟨cc, hec2, Commit.create_key_preserved db t cc0 cc.sha rid hkey2⟩
    have hih := ih (Commit.create db t cc0).2 hrest
    exact ⟨hih.1, hih.2.trans hlen⟩

/-- Re-upserting the same repository data against a store whose
repositories table is the result of the first upsert resolves to the
same surrogate id. -/
theorem Repository.create_again (db : DB) (t : Int) (rd : CreateRepository)
    (db2 : DB) (t2 : Int)
    (hrepos : db2.repositories = ((Repository.create db t rd).2).repositories) :
    (Repository.create db2 t2 rd).1.id = (Repository.create db t rd).1.id := by
  unfold Repository.create at hrepos ⊢
  cases hf : db.repositories.find? (fun r => r.github_id == rd.github_id) with
  | some r =>
    simp only [hf] at hrepos
    have hcomp : ((fun r : RepoRow => r.github_id == rd.github_id) ∘
        (fun x : RepoRow =>
          if x.github_id == rd.github_id then
            { x with
              name := rd.name, full_name := rd.full_name, owner := rd.owner,
              description := rd.description, url := rd.url,
              is_private := rd.is_private, updated_at := t }
          else x)) = (fun x : RepoRow => x.github_id == rd.github_id) := by
      funext x
      by_cases hc : x.github_id = rd.github_id <;> simp [hc]
    cases hf2 : db2.repositories.find? (fun r => r.github_id == rd.github_id) with
    | none =>
      rw [hrepos, List.find?_map, hcomp, hf] at hf2
      exact Option.noConfusion hf2
    | some y =>
      rw [hrepos, List.find?_map, hcomp, hf] at hf2
      simp only [Option.map_some', Option.some.injEq] at hf2
      show y.id = r.id
      rw [← hf2]
      split <;> rfl
  | none =>
    simp only [hf] at hrepos
    rw [hrepos, List.find?_append, hf]
    simp

/-- `mark_processed` touches only the events table. -/
theorem mark_processed_touch (db : DB) (t id : Int) :
    ((Event.mark_processed db t id)).repositories = db.repositories ∧
    ((Event.mark_processed db t id)).commits = db.commits ∧
    ((Event.mark_processed db t id)).pull_requests = db.pull_requests ∧
    ((Event.mark_processed db t id)).issues = db.issues :=
  ⟨rfl, rfl, rfl, rfl⟩

/-- Re-running a successful push projection against any store that
carries the tables the first run produced succeeds and adds no commit
rows. -/
theorem process_push_event_again (L : Libs) (db : DB) (t : Int) (ev : EventRow)
    (p : Json) (h : (process_push_event L db t ev p).1 = Except.ok ())
    (db2 : DB) (t2 : Int) (ev2 : EventRow)
    (hrepos : db2.repositories = ((process_push_event L db t ev p).2).repositories)
    (hcommits : db2.commits = ((process_push_event L db t ev p).2).commits) :
    (process_push_event L db2 t2 ev2 p).1 = Except.ok () ∧
    ((process_push_event L db2 t2 ev2 p).2).commits.length = db2.commits.length := by
  unfold process_push_event at h hrepos hcommits ⊢
  cases hre : extract_repository p with
  | error e =>
    rw [hre] at h
    exact Except.noConfusion h
  | ok rd =>
    rw [hre] at h hrepos hcommits
    dsimp only at h hrepos hcommits ⊢
    cases harr : (p.idx "commits").asArr with
    | none =>
      rw [harr] at h
      exact Except.noConfusion h
    | some cs =>
      rw [harr] at h hrepos hcommits
      dsimp only at h hrepos hcommits ⊢
      have hridsame : (Repository.create db2 t2 rd).1.id =
          (Repository.create db t rd).1.id := by
        apply Repository.create_again db t rd db2 t2
        rw [hrepos]
        exact (commitLoop_touch L t (Repository.create db t rd).1.id ev.id cs
          (Repository.create db t rd).2).2.1
      have hfirst := commitLoop_first_run L t (Repository.create db t rd).1.id
        ev.id cs (Repository.create db t rd).2 h
      have hkeys : ∀ c ∈ cs, ∃ cc,
          extractCommit L (Repository.create db2 t2 rd).1.id ev2.id c =
            Except.ok cc ∧
          commitKeyIn ((Repository.create db2 t2 rd).2).commits cc.sha
            (Repository.create db2 t2 rd).1.id := by
        intro c hc
        obtain ⟨cc, hec, hkey⟩ := hfirst c hc
        have hana := extractCommit_analysis L (Repository.create db t rd).1.id
          ev.id c cc hec
        refine ⟨{ cc with webhook_event_id := ev2.id }, ?_, ?_⟩
        · rw [hridsame]
          exact hana.2.2 ev2.id
        · have hc2 : ((Repository.create db2 t2 rd).2).commits = db2.commits :=
            (repoCreate_touch db2 t2 rd).2.1
          rw [hc2, hcommits, hridsame]
          exact hkey
      have hsecond := commitLoop_second_run L t2 (Repository.create db2 t2 rd).1.id
        ev2.id cs (Repository.create db2 t2 rd).2 hkeys
      refine ⟨hsecond.1, ?_⟩
      rw [hsecond.2]
      exact congrArg List.length (repoCreate_touch db2 t2 rd).2.1

/-- C4: projecting the same well-formed push payload twice (redelivery,
as a second event with the same raw payload) succeeds again and creates
no duplicate Commit rows — the second run's Commit::create upserts on
the (sha, repository_id) key, so the commit count is unchanged. -/
theorem c4_push_redelivery_no_duplicates (L : Libs) (db : DB) (t t2 : Int)
    (ev ev2 : EventRow)
    (hty : ev.event_type = "push") (hty2 : ev2.event_type = "push")
    (hraw : ev2.raw_event = ev.raw_event)
    (h1 : (process_github_event L db t ev).1 = Except.ok ()) :
    (process_github_event L ((process_github_event L db t ev).2) t2 ev2).1 =
      Except.ok () ∧
    ((process_github_event L ((process_github_event L db t ev).2) t2 ev2).2).commits.length
      = ((process_github_event L db t ev).2).commits.length := by
  unfold process_github_event at h1 ⊢
  simp only [hty, hty2, hraw, beq_self_eq_true, if_true] at h1 ⊢
  cases hs1 : (process_push_event L db t ev ev.raw_event).1 with
  | error e =>
    rw [hs1] at h1
    exact Except.noConfusion h1
  | ok u =>
    cases u
    simp only [hs1] at h1 ⊢
    have hagain := process_push_event_again L db t ev ev.raw_event hs1
      (Event.mark_processed (process_push_event L db t ev ev.raw_event).2 t ev.id)
      t2 ev2 rfl rfl
    cases hs2 : (process_push_event L
        (Event.mark_processed (process_push_event L db t ev ev.raw_event).2 t ev.id)
        t2 ev2 ev.raw_event).1 with
    | error e =>
      rw [hs2] at hagain
      exact absurd hagain.1 (by simp)
    | ok u2 =>
      cases u2
      simp only [hs2]
      exact ⟨trivial, hagain.2⟩

/-- A complete commit entry as delivered in a GitHub push payload. -/
def commitEntry (sha : String) : Json := Json.obj
  [("id", Json.str sha), ("message", Json.str "m"),
   ("author", Json.obj [("name", Json.str "a"), ("email", Json.str "a@x")]),
   ("committer", Json.obj [("name", Json.str "c"), ("email", Json.str "c@x")]),
   ("timestamp", Json.str "2024-01-01T00:00:00Z"),
   ("url", Json.str "https://example.com/c")]

def pushPayload : Json := Json.obj
  [("repository", Json.obj
      [("id", Json.num 7), ("name", Json.str "r"),
       ("full_name", Json.str "o/r"),
       ("owner", Json.obj [("login", Json.str "o")]),
       ("html_url", Json.str "https://example.com/o/r")]),
   ("commits", Json.arr [commitEntry "sha1", commitEntry "sha2"])]

def evPush1 : EventRow :=
  { id := 1, source := "github", event_type := "push", action := none,
    actor_name := none, actor_email := none, actor_id := none,
    raw_event := pushPayload, delivery_id := "d1", signature := none,
    received_at := 0, processed := false, processed_at := none,
    repository_id := none }

def evPush2 : EventRow :=
  { evPush1 with id := 2, delivery_id := "d2" }

def dbPush : DB := { DB.empty with events := [evPush1, evPush2] }

/-- Witness for C4: a two-commit push projects to exactly two Commit
rows, and redelivering the same payload as a second event leaves the
count at two. -/
theorem c4_witness :
    (process_github_event L0 dbPush 0 evPush1).1 = Except.ok () ∧
    ((process_github_event L0 dbPush 0 evPush1).2).commits.length = 2 ∧
    (process_github_event L0 ((process_github_event L0 dbPush 0 evPush1).2)
      1 evPush2).1 = Except.ok () ∧
    ((process_github_event L0 ((process_github_event L0 dbPush 0 evPush1).2)
      1 evPush2).2).commits.length =
      ((process_github_event L0 dbPush 0 evPush1).2).commits.length := by
  have h := c4_push_redelivery_no_duplicates L0 dbPush 0 1 evPush1 evPush2
    rfl rfl rfl (by rfl)
  exact ⟨by rfl, by rfl, h.1, h.2⟩
